import Mathlib

/-!
Verification of the flowmetry metrics pipeline.

This file gives a shallow embedding of the parts of the code base that the
checked properties talk about:

* `collector/converters.py` — OTLP decoding to internal metric points;
* `api/db.py` — the counter rate / increase evaluation with reset handling;
* `api/promql_parser.py` — the scalar shortcut branch of the parser;
* `api/services/prometheus.py` — the instant and range query handlers;
* `api/prometheus_formatter.py` — the text exposition formatter;
* `aggregator/worker.py` — the insert-then-ack worker loop;
* `collector/redis_stream_client.py` — the overflow-buffered stream sender;
* `collector/router.py` — the `/v1/metrics` ingest endpoint.

Python `dict[str, str]` values are modelled as insertion-ordered association
lists with the exact `dict.__setitem__` / `dict.update` semantics (overwrite
keeps the original position, new keys are appended).  Python floats are
modelled as rationals together with a rendering function that matches `str()`
on the values that occur in the checked scenarios.  Fallible code returns
`Except String`.
-/

/-- Insertion-ordered string dictionary, the model of Python `dict[str, str]`. -/
abbrev Dict := List (String × String)

/-- Model of `d[k] = v` on a Python dict: overwrite the first binding of `k`
in place, or append a new binding at the end. -/
def dictInsert (m : Dict) (k v : String) : Dict :=
  match m with
  | [] => [(k, v)]
  | (k0, v0) :: rest =>
      if k0 = k then (k0, v) :: rest else (k0, v0) :: dictInsert rest k v

/-- Model of `m.update(other)` on Python dicts: every binding of `other` is
written into `m`, so on a key conflict the value from `other` wins. -/
def dictUpdate (m other : Dict) : Dict :=
  other.foldl (fun acc kv => dictInsert acc kv.1 kv.2) m

/-- Model of `m.get(k)` / `m[k]` on a Python dict. -/
def dictLookup (m : Dict) (k : String) : Option String :=
  match m with
  | [] => none
  | (k0, v0) :: rest => if k0 = k then some v0 else dictLookup rest k

/-- Keys of a dict, in insertion order. -/
def dictKeys (m : Dict) : List String := m.map Prod.fst

/-- Model of Python `str.replace(c, r)` for a one-character pattern, the
only pattern shape the source uses: every occurrence of the character `c`
is replaced by the string `r`. -/
def pyReplaceChar (s : String) (c : Char) (r : String) : String :=
  String.mk (s.data.flatMap (fun ch => if ch = c then r.data else [ch]))

/-- Model of Python `str.strip()`: drop leading and trailing whitespace. -/
def pyStrip (s : String) : String :=
  String.mk
    (((s.data.dropWhile Char.isWhitespace).reverse.dropWhile
        Char.isWhitespace).reverse)

/-- Left-pad a digit string with zeros up to length `k`. -/
def padZeros (k : Nat) (s : String) : String :=
  String.mk (List.replicate (k - s.length) '0') ++ s

/-- Smallest exponent `k ≤ 60` with `den ∣ 10 ^ k`, i.e. the number of digits
of the finite decimal expansion. -/
def decExpLen (den : Nat) : Option Nat :=
  (List.range 61).find? (fun k => 10 ^ k % den = 0)

/-- Rendering of a Python float by `str()` for values with a short exact
decimal form: integral floats print a trailing `.0`, other values print
their decimal expansion.  This matches CPython's shortest-repr output on
every float value appearing in the checked scenarios. -/
def pyFloatStr (q : ℚ) : String :=
  if q.den = 1 then toString q.num ++ ".0"
  else
    match decExpLen q.den with
    | some k =>
        let sign := if q.num < 0 then "-" else ""
        let scaled : Nat := q.num.natAbs * ((10 ^ k) / q.den)
        let ip := scaled / 10 ^ k
        let fp := scaled % 10 ^ k
        sign ++ toString ip ++ "." ++ padZeros k (toString fp)
    | none => toString q

/-! ## OTLP request schema (`collector/otlp/schemas.py`)

The pydantic models are translated field by field.  `int_value` is a decimal
string in the source and is passed through `str(int(·))`; it is modelled as
an integer rendered by `toString`.  `double_value` is modelled as a rational.
-/

structure AnyValue where
  string_value : Option String := none
  bool_value : Option Bool := none
  int_value : Option Int := none
  double_value : Option ℚ := none
deriving Repr, DecidableEq

structure KeyValue where
  key : String
  value : AnyValue
deriving Repr, DecidableEq

structure NumberDataPoint where
  attributes : List KeyValue := []
  time_unix_nano : Int
  as_int : Option Int := none
  as_double : Option ℚ := none
deriving Repr, DecidableEq

structure HistogramDataPoint where
  attributes : List KeyValue := []
  time_unix_nano : Int
  count : Int
  sum : Option ℚ := none
  bucket_counts : List Int
  explicit_bounds : List ℚ := []
deriving Repr, DecidableEq

structure SumPayload where
  data_points : List NumberDataPoint
  is_monotonic : Bool
deriving Repr, DecidableEq

structure GaugePayload where
  data_points : List NumberDataPoint
deriving Repr, DecidableEq

structure HistogramPayload where
  data_points : List HistogramDataPoint
deriving Repr, DecidableEq

structure Metric where
  name : String
  description : String := ""
  unit : String := ""
  sum : Option SumPayload := none
  gauge : Option GaugePayload := none
  histogram : Option HistogramPayload := none
deriving Repr, DecidableEq

structure ScopeMetrics where
  metrics : List Metric
deriving Repr, DecidableEq

structure Resource where
  attributes : List KeyValue := []
deriving Repr, DecidableEq

structure ResourceMetrics where
  resource : Resource
  scope_metrics : List ScopeMetrics
deriving Repr, DecidableEq

structure OTLPMetricsRequest where
  resource_metrics : List ResourceMetrics
deriving Repr, DecidableEq

/-! ## Internal metric point (`collector/internal/schemas.py`) -/

inductive MetricType where
  | counter
  | gauge
  | histogram
deriving Repr, DecidableEq

structure MetricPoint where
  name : String
  description : String
  unit : String
  type : MetricType
  timestamp_nano : Int
  attributes : Dict
  value : Option ℚ := none
  sum : Option ℚ := none
  count : Option Int := none
  bucket_counts : Option (List Int) := none
  explicit_bounds : Option (List ℚ) := none
deriving Repr, DecidableEq

/-! ## OTLP converter (`collector/converters.py`) -/

/-- Model of `_parse_any_value`: string pass-through, bool lowered,
int via `str(int(·))`, double with `.0` dropped when integral. -/
def parse_any_value (kv : KeyValue) : String :=
  let v := kv.value
  match v.string_value with
  | some s => s
  | none =>
    match v.bool_value with
    | some b => if b then "true" else "false"
    | none =>
      match v.int_value with
      | some i => toString i
      | none =>
        match v.double_value with
        | some d => if d.den = 1 then toString d.num else pyFloatStr d
        | none => ""

/-- Model of `_normalize_attribute_key`: replace every `.` with `_`. -/
def normalize_attribute_key (key : String) : String :=
  pyReplaceChar key '.' "_"

/-- Model of `_should_keep_attribute`: drop keys starting with a reserved
system namespace. -/
def should_keep_attribute (key : String) : Bool :=
  !("telemetry.sdk.".isPrefixOf key
    || "otel.scope.".isPrefixOf key
    || "otel.library.".isPrefixOf key)

/-- Model of `_attributes_to_dict`: keep allowed keys, normalise them, coerce
values to strings and drop empty values. -/
def attributes_to_dict (attributes : List KeyValue) : Dict :=
  attributes.foldl
    (fun result kv =>
      if !(should_keep_attribute kv.key) then result
      else
        let clean_key := normalize_attribute_key kv.key
        let clean_value := parse_any_value kv
        if clean_value ≠ "" then dictInsert result clean_key clean_value
        else result)
    []

/-- Model of `_convert_number_data_point`. -/
def convert_number_data_point (dp : NumberDataPoint) (metric : Metric)
    (metric_type : MetricType) : MetricPoint :=
  let value : ℚ :=
    match dp.as_int with
    | some i => (i : ℚ)
    | none =>
      match dp.as_double with
      | some d => d
      | none => 0
  { name := metric.name
    description := metric.description
    unit := metric.unit
    type := metric_type
    timestamp_nano := dp.time_unix_nano
    attributes := attributes_to_dict dp.attributes
    value := some value }

/-- Model of `_convert_histogram_data_point`. -/
def convert_histogram_data_point (dp : HistogramDataPoint) (metric : Metric) :
    MetricPoint :=
  { name := metric.name
    description := metric.description
    unit := metric.unit
    type := MetricType.histogram
    timestamp_nano := dp.time_unix_nano
    attributes := attributes_to_dict dp.attributes
    sum := dp.sum
    count := some dp.count
    bucket_counts := some dp.bucket_counts
    explicit_bounds := some dp.explicit_bounds }

/-- The points contributed by one metric inside `convert_otlp_to_internal`.
The source tests `if metric.sum: ... elif metric.gauge: ... elif
metric.histogram:`; a pydantic model instance is always truthy, so each test
means presence (`is not None`), not non-emptiness.  Every produced point has
`point.attributes.update(resource_attrs)` applied, so resource attributes
overwrite data-point attributes on a key conflict. -/
def pointsOfMetric (resource_attrs : Dict) (metric : Metric) :
    List MetricPoint :=
  match metric.sum with
  | some s =>
      s.data_points.map (fun dp =>
        let point := convert_number_data_point dp metric MetricType.counter
        { point with attributes := dictUpdate point.attributes resource_attrs })
  | none =>
    match metric.gauge with
    | some g =>
        g.data_points.map (fun dp =>
          let point := convert_number_data_point dp metric MetricType.gauge
          { point with attributes := dictUpdate point.attributes resource_attrs })
    | none =>
      match metric.histogram with
      | some h =>
          h.data_points.map (fun dp =>
            let point := convert_histogram_data_point dp metric
            { point with attributes := dictUpdate point.attributes resource_attrs })
      | none => []

/-- Model of `convert_otlp_to_internal`: the triple loop over
`resource_metrics → scope_metrics → metrics`, flattened. -/
def convert_otlp_to_internal (request : OTLPMetricsRequest) : List MetricPoint :=
  request.resource_metrics.flatMap (fun rm =>
    let resource_attrs := attributes_to_dict rm.resource.attributes
    rm.scope_metrics.flatMap (fun sm =>
      sm.metrics.flatMap (fun metric => pointsOfMetric resource_attrs metric)))

/-! ## Parsed query (`api/promql_parser.py`)

`RangeVector.unit`, `ParsedQuery.function` and `ParsedQuery.aggregation` are
`Literal` string types in the source and are modelled as inductives.
-/

inductive TimeUnit where
  | s
  | m
  | h
  | d
  | w
deriving Repr, DecidableEq

structure RangeVector where
  value : Int
  unit : TimeUnit
deriving Repr, DecidableEq

/-- Model of `RangeVector.seconds`: the unit multiplier table. -/
def RangeVector.seconds (r : RangeVector) : Int :=
  r.value *
    (match r.unit with
     | .s => 1
     | .m => 60
     | .h => 3600
     | .d => 86400
     | .w => 604800)

inductive QueryFn where
  | raw
  | rate
  | increase
deriving Repr, DecidableEq

/-- Rendering of the `function` literal, as it appears in f-strings. -/
def QueryFn.str : QueryFn → String
  | .raw => "raw"
  | .rate => "rate"
  | .increase => "increase"

inductive AggOp where
  | sum
  | avg
  | min
  | max
  | count
deriving Repr, DecidableEq

/-- Rendering of the `aggregation` literal. -/
def AggOp.str : AggOp → String
  | .sum => "sum"
  | .avg => "avg"
  | .min => "min"
  | .max => "max"
  | .count => "count"

structure ParsedQuery where
  raw : String
  metric_name : Option String := none
  labels : Dict := []
  function : QueryFn := .raw
  range : Option RangeVector := none
  aggregation : Option AggOp := none
  by_labels : List String := []
  scalar_value : Option String := none
deriving Repr, DecidableEq

/-- Model of `ParsedQuery.get_lookback_seconds` (default 300). -/
def ParsedQuery.get_lookback_seconds (p : ParsedQuery) (default : Int := 300) :
    Int :=
  match p.range with
  | some r => r.seconds
  | none => default

/-- Model of `ParsedQuery.get_effective_metric_name`. -/
def ParsedQuery.get_effective_metric_name (p : ParsedQuery) : String :=
  let base := p.metric_name.getD "scalar"
  let base :=
    if p.function ≠ .raw then p.function.str ++ "(" ++ base ++ ")" else base
  match p.aggregation with
  | some a => a.str ++ "(" ++ base ++ ")"
  | none => base

/-- Model of the scalar shortcut branch at the top of `PromQLParser.parse`
(lines 118–127): after stripping, the exact strings `up`, `1` and `1+1`
return a scalar parsed query without touching the regex grammar.  Queries
that fall through to the regex path are outside this model and yield
`none`. -/
def parse_scalar_shortcut (query : String) : Option ParsedQuery :=
  let query := pyStrip query
  if query = "up" then some { raw := query, scalar_value := some "1" }
  else if query = "1" then some { raw := query, scalar_value := some "1" }
  else if query = "1+1" then some { raw := query, scalar_value := some "2" }
  else none

/-! ## Counter rate / increase with resets (`api/db.py`) -/

/-- The common loop body of `calculate_rate_with_resets` and
`calculate_increase_with_resets`: starting from the previous value, add each
consecutive delta, replacing a negative delta by the current value. -/
def totalDeltaWithResets : ℚ → List ℚ → ℚ
  | _, [] => 0
  | prev, curr :: rest =>
      (if curr - prev < 0 then curr else curr - prev)
        + totalDeltaWithResets curr rest

/-- The claim-side hypothesis of the reset-handling property: every
consecutive value delta of the point list is non-negative. -/
def nonnegDeltas : List (ℚ × ℚ) → Bool
  | [] => true
  | [_] => true
  | a :: b :: rest => (a.2 ≤ b.2) && nonnegDeltas (b :: rest)

/-- Model of `TimescaleDB.calculate_increase_with_resets`. -/
def calculate_increase_with_resets (points : List (ℚ × ℚ)) : ℚ :=
  if points.length < 2 then 0
  else
    match points with
    | [] => 0
    | p :: rest => totalDeltaWithResets p.2 (rest.map Prod.snd)

/-- Model of `TimescaleDB.calculate_rate_with_resets`.  Rational division is
total; the callers always pass a positive `window_seconds`. -/
def calculate_rate_with_resets (points : List (ℚ × ℚ)) (window_seconds : ℚ) :
    ℚ :=
  if points.length < 2 then 0
  else
    match points with
    | [] => 0
    | p :: rest => totalDeltaWithResets p.2 (rest.map Prod.snd) / window_seconds

/-- Model of `TimescaleDB.fetch_counter_raw_values` applied to one matched
counter series: `table` stands for the stored `(time, value)` samples of that
series in time-ascending order, and the SQL `WHERE` clause keeps the samples
with `start_ts ≤ time ≤ end_ts`. -/
def fetch_counter_raw_values (table : List (ℚ × ℚ)) (start_ts end_ts : ℚ) :
    List (ℚ × ℚ) :=
  table.filter (fun r => start_ts ≤ r.1 ∧ r.1 ≤ end_ts)

/-- The tick sequence of the loop `current = start; while current <= end:
...; current += step`, shared by `_fetch_counter_rate_or_increase` and the
`up` branch of `handle_range_query`.  The source loop does not terminate for
`step ≤ 0`; the HTTP layer enforces `step ≥ 1`. -/
def stepTicks (start_ts end_ts : ℚ) (step : Int) : List ℚ :=
  if step ≤ 0 then []
  else if end_ts < start_ts then []
  else
    (List.range ((((end_ts - start_ts) / (step : ℚ)).floor).toNat + 1)).map
      (fun i => start_ts + (i : ℚ) * (step : ℚ))

/-- One row of the result shape shared by the range-query fetchers:
`(name, attributes, value, bucket time)`. -/
abbrev SeriesRow := String × Dict × ℚ × ℚ

/-- Model of `TimescaleDB._fetch_counter_rate_or_increase` over one matched
series: fetch the raw points for `[start_ts, end_ts]`, then for each bucket
`[current, current + step]` apply the reset-aware rate or increase; a bucket
with one point emits `0.0`, an empty bucket is skipped. -/
def fetch_counter_rate_or_increase (table : List (ℚ × ℚ))
    (metric_name : String) (labels : Dict) (start_ts end_ts : ℚ)
    (step_seconds : Int) (function : QueryFn) : List SeriesRow :=
  let raw_points := fetch_counter_raw_values table start_ts end_ts
  if raw_points = [] then []
  else
    (stepTicks start_ts end_ts step_seconds).filterMap (fun current =>
      let bucket_end := current + (step_seconds : ℚ)
      let window_points :=
        raw_points.filter (fun p => current ≤ p.1 ∧ p.1 ≤ bucket_end)
      if 2 ≤ window_points.length then
        some (metric_name, labels,
          (if function = .rate then
            calculate_rate_with_resets window_points (step_seconds : ℚ)
          else calculate_increase_with_resets window_points), current)
      else if window_points ≠ [] then
        some (metric_name, labels, (0 : ℚ), current)
      else none)

/-- In `handle_range_query` and the rate branch of `handle_instant_query`
the source calls `timescale_db.fetch_timeseries_for_range` with a keyword
argument `lookback_seconds` that the method (api/db.py line 229) does not
declare, so in Python the call raises `TypeError` before any SQL runs.  The
call site is modelled as this error value. -/
def fetch_timeseries_for_range_call : Except String (List SeriesRow) :=
  .error
    "fetch_timeseries_for_range() got an unexpected keyword argument 'lookback_seconds'"

/-! ## Prometheus response shapes (`api/schemas.py`) -/

structure InstantResultItem where
  metric : Dict
  value : ℚ × String
deriving Repr, DecidableEq

structure InstantQueryData where
  resultType : String := "vector"
  result : List InstantResultItem
deriving Repr, DecidableEq

structure InstantQueryResponse where
  status : String := "success"
  data : InstantQueryData
deriving Repr, DecidableEq

structure ResultItem where
  metric : Dict
  values : List (ℚ × String)
deriving Repr, DecidableEq

structure QueryRangeData where
  resultType : String := "matrix"
  result : List ResultItem
deriving Repr, DecidableEq

structure QueryRangeResponse where
  status : String := "success"
  data : QueryRangeData
deriving Repr, DecidableEq

/-! ## Query evaluator (`api/services/prometheus.py`) -/

/-- Lexicographic order on label pairs, the order used by
`tuple(sorted(str_attrs.items()))`. -/
def pairLE (a b : String × String) : Bool :=
  decide (a.1 < b.1) || (decide (a.1 = b.1) && decide (a.2 ≤ b.2))

/-- Stable insertion of `x` behind the elements `≤` it. -/
def insertSorted (le : α → α → Bool) (x : α) : List α → List α
  | [] => [x]
  | y :: ys => if le y x then y :: insertSorted le x ys else x :: y :: ys

/-- Model of Python `sorted`: a stable sort (insertion sort; Python's
timsort is also stable, and the two agree on every list). -/
def pySorted (le : α → α → Bool) (l : List α) : List α :=
  l.foldl (fun acc x => insertSorted le x acc) []

/-- The grouping dict of `_generate_query_range_response`: rows are grouped
by their sorted label tuple, groups keep first-seen order and each group's
points keep encounter order (Python dict semantics). -/
def addToGroup (groups : List (Dict × List (ℚ × String))) (key : Dict)
    (point : ℚ × String) : List (Dict × List (ℚ × String)) :=
  match groups with
  | [] => [(key, [point])]
  | (k0, pts) :: rest =>
      if k0 = key then (k0, pts ++ [point]) :: rest
      else (k0, pts) :: addToGroup rest key point

/-- Model of `PrometheusService._generate_query_range_response`. -/
def generate_query_range_response (parsed : ParsedQuery)
    (series : List SeriesRow) : QueryRangeResponse :=
  let grouped := series.foldl
    (fun groups row =>
      let key := pySorted pairLE row.2.1
      addToGroup groups key (row.2.2.2, pyFloatStr row.2.2.1))
    []
  let effective_name := parsed.get_effective_metric_name
  { status := "success"
    data :=
      { resultType := "matrix"
        result := grouped.map (fun g =>
          { metric := dictInsert g.1 "__name__" effective_name
            values := g.2 }) } }

/-- Model of `PrometheusService._generate_instant_query_response`. -/
def generate_instant_query_response (parsed : ParsedQuery)
    (series : List SeriesRow) (timestamp : Option ℚ) : InstantQueryResponse :=
  { status := "success"
    data :=
      { resultType := "vector"
        result := series.map (fun row =>
          { metric :=
              dictUpdate [("__name__", parsed.get_effective_metric_name)]
                row.2.1
            value := (timestamp.getD row.2.2.2, pyFloatStr row.2.2.1) }) } }

/-- Model of the body of `PrometheusService.handle_instant_query` after
parsing.  `instant_rows` stands for the result of
`timescale_db.fetch_metric_instant` for the parsed selector.  The
rate/increase branch reaches the `fetch_timeseries_for_range` call site with
the spurious `lookback_seconds` keyword argument, which raises. -/
def handle_instant_query_parsed (parsed : ParsedQuery) (timestamp : ℚ)
    (instant_rows : List SeriesRow) : Except String InstantQueryResponse :=
  match parsed.scalar_value with
  | some sv =>
      .ok
        { status := "success"
          data :=
            { resultType := "vector"
              result :=
                [{ metric := [("__name__", parsed.raw)]
                   value := (timestamp, sv) }] } }
  | none =>
    if parsed.metric_name = some "up" then
      .ok (generate_instant_query_response parsed
        [("up", parsed.labels, (1 : ℚ), timestamp)] (some timestamp))
    else if parsed.function = .rate ∨ parsed.function = .increase then
      let lookback := parsed.get_lookback_seconds
      if lookback ≤ 0 then
        .error ("Function " ++ parsed.function.str
          ++ " requires lookback window, got " ++ toString lookback)
      else
        fetch_timeseries_for_range_call.bind (fun raw_series =>
          .ok (generate_instant_query_response parsed raw_series
            (some timestamp)))
    else
      .ok (generate_instant_query_response parsed instant_rows none)

/-- Model of the body of `PrometheusService.handle_range_query` after
parsing.  The scalar check precedes the `up` branch; every remaining branch
reaches the `fetch_timeseries_for_range` call site, which raises `TypeError`
(see `fetch_timeseries_for_range_call`), so the `_apply_aggregation` step
after it is unreachable. -/
def handle_range_query_parsed (parsed : ParsedQuery) (start_ts end_ts : ℚ)
    (step : Int) : Except String QueryRangeResponse :=
  match parsed.scalar_value with
  | some _ => .error "Invalid expression type \"scalar\" for range query"
  | none =>
    if parsed.metric_name = some "up" then
      .ok (generate_query_range_response parsed
        ((stepTicks start_ts end_ts step).map
          (fun t => ("up", parsed.labels, (1 : ℚ), t))))
    else if parsed.function = .rate ∨ parsed.function = .increase then
      let lookback := parsed.get_lookback_seconds
      if lookback ≤ 0 then
        .error ("Function " ++ parsed.function.str
          ++ " requires lookback window, got " ++ toString lookback)
      else
        fetch_timeseries_for_range_call.bind (fun series =>
          .ok (generate_query_range_response parsed series))
    else
      fetch_timeseries_for_range_call.bind (fun series =>
        .ok (generate_query_range_response parsed series))

/-! ## Text exposition formatter (`api/prometheus_formatter.py`) -/

/-- Model of the `DBMetric` row shape (`api/schemas.py`). -/
structure DBMetric where
  name : String
  description : String
  unit : String
  type : MetricType
  attributes : Dict
  time : ℚ
  value : Option ℚ := none
  sum : Option ℚ := none
  count : Option Int := none
  bucket_counts : Option (List Int) := none
  explicit_bounds : Option (List ℚ) := none
deriving Repr, DecidableEq

/-- Model of `PrometheusFormatter._escape_label_value`. -/
def escape_label_value (value : String) : String :=
  pyReplaceChar (pyReplaceChar (pyReplaceChar value '\\' "\\\\") '\n' "\\n")
    '\"' "\\\""

/-- Model of `PrometheusFormatter._format_labels`. -/
def format_labels (attributes : Dict) : String :=
  if attributes = [] then ""
  else
    "\x7b"
      ++ String.intercalate ","
        (attributes.map (fun kv =>
          kv.1 ++ "=\"" ++ escape_label_value kv.2 ++ "\""))
      ++ "\x7d"

/-- The cumulative `_bucket` lines: `zip(explicit_bounds, bucket_counts,
strict=False)` pairs up to the shorter list, and the running sum is
rendered for each bound.  The f-string places a space between
`{metric.name}_bucket{label_str}` and the literal `{le="..."}` group, and
`{bound}` renders the float via `str`. -/
def histogramBucketLines (name : String) (label_str : String)
    (pairs : List (ℚ × Int)) : List String :=
  (pairs.foldl
    (fun (acc : List String × Int) p =>
      let cumulative := acc.2 + p.2
      (acc.1
        ++ [name ++ "_bucket" ++ label_str ++ " \x7ble=\"" ++ pyFloatStr p.1
            ++ "\"\x7d " ++ toString cumulative],
        cumulative))
    ([], 0)).1

/-- Model of `PrometheusFormatter._format_histogram_metric`. -/
def format_histogram_metric (metric : DBMetric) : List String :=
  match metric.bucket_counts, metric.explicit_bounds, metric.sum,
      metric.count with
  | some bucket_counts, some explicit_bounds, some s, some count =>
      let label_str := format_labels metric.attributes
      ["# HELP " ++ metric.name ++ " " ++ metric.description,
       "# TYPE " ++ metric.name ++ " histogram"]
        ++ histogramBucketLines metric.name label_str
            (List.zip explicit_bounds bucket_counts)
        ++ [metric.name ++ "_bucket" ++ label_str ++ " \x7ble=\"+Inf\"\x7d "
              ++ toString count,
            metric.name ++ "_sum" ++ label_str ++ " " ++ pyFloatStr s,
            metric.name ++ "_count" ++ label_str ++ " " ++ toString count]
  | _, _, _, _ => []

/-! ## Aggregator worker (`aggregator/worker.py`)

The loop bodies over entries yielded by `read_messages` (lines 25–45) and by
`claim_pending_messages` (lines 58–74) are modelled one entry at a time: the
DB insert outcome for an entry is given by the `insert_metric` oracle; on
success `ack` is called with the entry id, on failure the error is logged and
the loop continues with the next entry.  The returned list records the acked
ids in call order.
-/

/-- The `async for` body of the read loop in `AggregationWorker.start`. -/
def worker_read_loop_acks (entries : List (String × MetricPoint))
    (insert_metric : String × MetricPoint → Except String Unit) :
    List String :=
  match entries with
  | [] => []
  | e :: rest =>
    match insert_metric e with
    | .ok _ => e.1 :: worker_read_loop_acks rest insert_metric
    | .error _ => worker_read_loop_acks rest insert_metric

/-- The body of `AggregationWorker._process_pending_messages`. -/
def worker_pending_loop_acks (entries : List (String × MetricPoint))
    (insert_metric : String × MetricPoint → Except String Unit) :
    List String :=
  match entries with
  | [] => []
  | e :: rest =>
    match insert_metric e with
    | .ok _ => e.1 :: worker_pending_loop_acks rest insert_metric
    | .error _ => worker_pending_loop_acks rest insert_metric

/-! ## Collector stream client (`collector/redis_stream_client.py`)

`send_message` runs under the buffer mutex: it drains buffered entries to
the stream in FIFO order (each successful `xadd` pops the head), then sends
the new entry.  A `ConnectionError`/`TimeoutError` at any `xadd` aborts the
drain and the handler appends the NEW entry to the buffer tail when capacity
remains, else drops it.  Any other exception propagates to the caller with
the buffer left as the drain loop left it.  The outcome of the `i`-th `xadd`
attempt inside one call is given by an oracle.
-/

inductive XaddOutcome where
  | ok
  | connTimeout
  | raise (msg : String)
deriving Repr, DecidableEq

/-- True when the outcome is an exception other than connection/timeout. -/
def XaddOutcome.isRaise : XaddOutcome → Bool
  | .raise _ => true
  | _ => false

structure CollectorState (α : Type) where
  stream : List α
  buffer : List α
  dropped : List α
deriving Repr, DecidableEq

/-- Result of one `send_message` call: normal return, or an uncaught
exception propagated to the caller (with the state as the call left it). -/
inductive SendResult (α : Type) where
  | sent (st : CollectorState α)
  | raised (msg : String) (st : CollectorState α)
deriving Repr, DecidableEq

/-- The state after a `send_message` call, whether it returned or raised. -/
def SendResult.state : SendResult α → CollectorState α
  | .sent st => st
  | .raised _ st => st

/-- The `while self._buffer:` drain loop: send the head, pop on success;
stop on a connection/timeout error; propagate any other exception.
Returns the grown stream, the remaining buffer, the next attempt index and
the loop outcome (`.ok` = buffer fully drained). -/
def drainBuffer (stream buffer : List α) (out : Nat → XaddOutcome)
    (i : Nat) : List α × List α × Nat × XaddOutcome :=
  match buffer with
  | [] => (stream, [], i, .ok)
  | b :: rest =>
    match out i with
    | .ok => drainBuffer (stream ++ [b]) rest out (i + 1)
    | .connTimeout => (stream, b :: rest, i, .connTimeout)
    | .raise msg => (stream, b :: rest, i, .raise msg)

/-- Model of `RedisStreamClient.send_message` for a started client.  The
trace-id merge and JSON serialization do not affect ordering and are left
out of the payload model. -/
def send_message (running : Bool) (buffer_size : Nat)
    (st : CollectorState α) (data : α) (out : Nat → XaddOutcome) :
    SendResult α :=
  if !running then .raised "Redis client not started" st
  else
    match drainBuffer st.stream st.buffer out 0 with
    | (stream, buf, i, .ok) =>
      match out i with
      | .ok => .sent { stream := stream ++ [data], buffer := buf,
                       dropped := st.dropped }
      | .connTimeout =>
          if buf.length < buffer_size then
            .sent { stream := stream, buffer := buf ++ [data],
                    dropped := st.dropped }
          else
            .sent { stream := stream, buffer := buf,
                    dropped := st.dropped ++ [data] }
      | .raise msg =>
          .raised msg { stream := stream, buffer := buf,
                        dropped := st.dropped }
    | (stream, buf, _, .connTimeout) =>
        if buf.length < buffer_size then
          .sent { stream := stream, buffer := buf ++ [data],
                  dropped := st.dropped }
        else
          .sent { stream := stream, buffer := buf,
                  dropped := st.dropped ++ [data] }
    | (stream, buf, _, .raise msg) =>
        .raised msg { stream := stream, buffer := buf,
                      dropped := st.dropped }

/-- A sequence of `send_message` calls on one client; each caller proceeds
independently, so the state threads through raised calls as well. -/
def send_run (running : Bool) (buffer_size : Nat)
    (st : CollectorState α) (sends : List (α × (Nat → XaddOutcome))) :
    CollectorState α :=
  sends.foldl
    (fun st s => (send_message running buffer_size st s.1 s.2).state) st

/-! ## Collector ingest endpoint (`collector/router.py`)

`ingest_metrics` converts the decoded request and sends each point; the
whole body is wrapped in `try/except Exception`, which maps ANY exception
(including a send failure such as `RuntimeError('Redis client not
started')`) to HTTP 400 with detail `Invalid OTLP data: {e}`.  On success it
returns `{"received": N}`.  `outs n` is the xadd-outcome oracle for the
`n`-th `send_message` call of this request.
-/

/-- The `for point in points: await send_message(...)` loop, threading the
client state; stops at the first uncaught exception. -/
def ingest_send_loop (running : Bool) (buffer_size : Nat)
    (st : CollectorState MetricPoint) (points : List MetricPoint)
    (outs : Nat → Nat → XaddOutcome) (n : Nat) :
    Except String (CollectorState MetricPoint) :=
  match points with
  | [] => .ok st
  | p :: rest =>
    match send_message running buffer_size st p (outs n) with
    | .sent st1 => ingest_send_loop running buffer_size st1 rest outs (n + 1)
    | .raised msg _ => .error msg

/-- Model of `ingest_metrics`: HTTP status and body.  `.ok n` is the 200
response `{"received": n}`; `.error (code, detail)` is an `HTTPException`. -/
def ingest_metrics (request : OTLPMetricsRequest) (running : Bool)
    (buffer_size : Nat) (st : CollectorState MetricPoint)
    (outs : Nat → Nat → XaddOutcome) : Except (Nat × String) Nat :=
  let points := convert_otlp_to_internal request
  match ingest_send_loop running buffer_size st points outs 0 with
  | .ok _ => .ok points.length
  | .error msg => .error (400, "Invalid OTLP data: " ++ msg)

/-! ## Concrete inputs used by the claim theorems and witnesses -/

/-- A gauge data point whose attribute key `a` (value `d`) conflicts with
the enclosing resource's attribute `a` (value `r`). -/
def c1DataPoint : NumberDataPoint :=
  { time_unix_nano := 1
    as_int := some 7
    attributes := [⟨"a", { string_value := some "d" }⟩] }

/-- The metric holding `c1DataPoint` in its gauge payload. -/
def c1Metric : Metric :=
  { name := "g"
    gauge := some { data_points := [c1DataPoint] } }

/-- The scope wrapping `c1Metric`. -/
def c1ScopeMetrics : ScopeMetrics := { metrics := [c1Metric] }

/-- The resource block with attribute `a = "r"` enclosing `c1Metric`. -/
def c1ResourceMetrics : ResourceMetrics :=
  { resource := { attributes := [⟨"a", { string_value := some "r" }⟩] }
    scope_metrics := [c1ScopeMetrics] }

/-- An OTLP request with one gauge data point whose attribute key `a`
conflicts with the enclosing resource's attribute `a`. -/
def c1Request : OTLPMetricsRequest :=
  { resource_metrics := [c1ResourceMetrics] }

/-- The single point `convert_otlp_to_internal` emits for `c1Request`. -/
def c1Point : MetricPoint :=
  { name := "g"
    description := ""
    unit := ""
    type := .gauge
    timestamp_nano := 1
    attributes := [("a", "r")]
    value := some 7 }

/-- The stored counter samples of the rate-with-reset scenario. -/
def c2Table : List (ℚ × ℚ) := [(0, 0), (10, 10), (20, 5), (30, 15)]

/-- The parse of `rate(c[30s])`. -/
def c2RateQuery : ParsedQuery :=
  { raw := "rate(c[30s])"
    metric_name := some "c"
    function := .rate
    range := some ⟨30, .s⟩ }

/-- The parse of the exact query string `up` (the scalar shortcut). -/
def upScalarQuery : ParsedQuery := { raw := "up", scalar_value := some "1" }

/-- A parsed selector whose metric name is `up` (reachable e.g. through the
selector form of the grammar), with no scalar value. -/
def upSelectorQuery : ParsedQuery := { raw := "up_selector", metric_name := some "up" }

/-- A metric whose `sum` branch is present but has zero data points while
its `gauge` branch holds one data point. -/
def c6Metric : Metric :=
  { name := "m"
    sum := some { data_points := [], is_monotonic := true }
    gauge := some { data_points := [{ time_unix_nano := 1, as_int := some 7 }] } }

/-- The histogram row of the exposition scenario: no attributes, bounds
`[1, 5]`, bucket counts `[2, 3, 1]`, sum `12.5`, count `6`. -/
def c7Histogram : DBMetric :=
  { name := "h"
    description := ""
    unit := ""
    type := .histogram
    attributes := []
    time := 0
    sum := some ⟨25, 2, by decide, by decide⟩
    count := some 6
    bucket_counts := some [2, 3, 1]
    explicit_bounds := some [1, 5] }

/-! ## Dictionary lemmas -/

theorem dictLookup_dictInsert (m : Dict) (k v k' : String) :
    dictLookup (dictInsert m k v) k' =
      if k = k' then some v else dictLookup m k' := by
  induction m with
  | nil => simp [dictInsert, dictLookup]
  | cons kv rest ih =>
    obtain ⟨k0, v0⟩ := kv
    by_cases h : k0 = k
    · subst h
      by_cases h' : k0 = k' <;> simp [dictInsert, dictLookup, h']
    · by_cases h' : k0 = k'
      · subst h'
        have hkk : ¬ k = k0 := fun hk => h hk.symm
        simp [dictInsert, dictLookup, h, hkk]
      · simp [dictInsert, dictLookup, h, h', ih]

theorem dictLookup_eq_none_of_not_mem (m : Dict) (k : String)
    (h : k ∉ dictKeys m) : dictLookup m k = none := by
  induction m with
  | nil => rfl
  | cons kv rest ih =>
    obtain ⟨k0, v0⟩ := kv
    simp only [dictKeys, List.map_cons, List.mem_cons, not_or] at h
    simp only [dictLookup, if_neg (fun hk : k0 = k => h.1 hk.symm)]
    exact ih (by simpa [dictKeys] using h.2)

theorem mem_dictKeys_dictInsert (m : Dict) (k v x : String) :
    x ∈ dictKeys (dictInsert m k v) ↔ x ∈ dictKeys m ∨ x = k := by
  induction m with
  | nil => simp [dictInsert, dictKeys]
  | cons kv rest ih =>
    obtain ⟨k0, v0⟩ := kv
    by_cases h : k0 = k
    · subst h
      have e : dictInsert ((k0, v0) :: rest) k0 v = (k0, v) :: rest := by
        simp [dictInsert]
      rw [e]
      simp only [dictKeys, List.map_cons, List.mem_cons]
      tauto
    · simp only [dictInsert, if_neg h, dictKeys, List.map_cons,
        List.mem_cons] at ih ⊢
      rw [ih]
      tauto

theorem nodup_dictKeys_dictInsert (m : Dict) (k v : String)
    (h : (dictKeys m).Nodup) : (dictKeys (dictInsert m k v)).Nodup := by
  induction m with
  | nil => simp [dictInsert, dictKeys]
  | cons kv rest ih =>
    obtain ⟨k0, v0⟩ := kv
    simp only [dictKeys, List.map_cons, List.nodup_cons] at h
    by_cases hk : k0 = k
    · subst hk
      have e : dictInsert ((k0, v0) :: rest) k0 v = (k0, v) :: rest := by
        simp [dictInsert]
      rw [e]
      simp only [dictKeys, List.map_cons, List.nodup_cons]
      exact h
    · simp only [dictInsert, if_neg hk, dictKeys, List.map_cons,
        List.nodup_cons]
      refine ⟨?_, ih h.2⟩
      intro hmem
      have hmem' : k0 ∈ dictKeys (dictInsert rest k v) := by
        simpa [dictKeys] using hmem
      rcases (mem_dictKeys_dictInsert rest k v k0).mp hmem' with hx | hx
      · exact h.1 (by simpa [dictKeys] using hx)
      · exact hk hx

theorem nodup_dictKeys_attributes_to_dict (l : List KeyValue) :
    (dictKeys (attributes_to_dict l)).Nodup := by
  suffices h : ∀ (l : List KeyValue) (acc : Dict), (dictKeys acc).Nodup →
      (dictKeys (l.foldl
        (fun result kv =>
          if !(should_keep_attribute kv.key) then result
          else
            let clean_key := normalize_attribute_key kv.key
            let clean_value := parse_any_value kv
            if clean_value ≠ "" then dictInsert result clean_key clean_value
            else result)
        acc)).Nodup by
    exact h l [] (by simp [dictKeys])
  intro l
  induction l with
  | nil => intro acc hacc; exact hacc
  | cons kv rest ih =>
    intro acc hacc
    simp only [List.foldl_cons]
    by_cases h1 : !(should_keep_attribute kv.key)
    · simp only [if_pos h1]; exact ih acc hacc
    · simp only [if_neg h1]
      by_cases h2 : parse_any_value kv ≠ ""
      · simp only [if_pos h2]
        exact ih _ (nodup_dictKeys_dictInsert _ _ _ hacc)
      · simp only [if_neg h2]
        exact ih acc hacc

theorem dictLookup_dictUpdate (a b : Dict) (k : String)
    (hb : (dictKeys b).Nodup) :
    dictLookup (dictUpdate a b) k =
      (dictLookup b k).or (dictLookup a k) := by
  induction b generalizing a with
  | nil => simp [dictUpdate, dictLookup, Option.or]
  | cons kv rest ih =>
    obtain ⟨k0, v0⟩ := kv
    simp only [dictKeys, List.map_cons, List.nodup_cons] at hb
    have step : dictUpdate a ((k0, v0) :: rest)
        = dictUpdate (dictInsert a k0 v0) rest := rfl
    rw [step, ih _ hb.2]
    by_cases h : k0 = k
    · subst h
      have hrest : dictLookup rest k0 = none :=
        dictLookup_eq_none_of_not_mem rest k0 (by simpa [dictKeys] using hb.1)
      simp [dictLookup, hrest, dictLookup_dictInsert, Option.or]
    · simp [dictLookup, h, dictLookup_dictInsert]

/-! ## C1 — resource vs data-point attribute precedence -/

/-- C1 counterexample: the claim says the data-point value wins on a key
conflict, but for `c1Request` (resource `a="r"`, data point `a="d"`) the
emitted point carries `a="r"`: `point.attributes.update(resource_attrs)`
lets the resource value overwrite the data-point value. -/
theorem c1_counterexample :
    (convert_otlp_to_internal c1Request).map MetricPoint.attributes
        = [[("a", "r")]]
    ∧ ("r" : String) ≠ "d" := by
  constructor
  · decide
  · decide

/-- C1 (amended): for every decoded request, resource block, metric and
selected payload, the emitted points are exactly, in order, the converted
data points with their attributes replaced by the union
`dictUpdate (attributes_to_dict dp.attributes) resource_attrs` of the
enclosing resource's attributes and that data point's own attributes; and
on this union a key present in the resource dict resolves to the RESOURCE
value, every other key to the data-point value. -/
theorem c1_resource_attributes_win (request : OTLPMetricsRequest) :
    ∀ rm ∈ request.resource_metrics, ∀ sm ∈ rm.scope_metrics,
    ∀ metric ∈ sm.metrics,
      (∀ s, metric.sum = some s →
        pointsOfMetric (attributes_to_dict rm.resource.attributes) metric
          = s.data_points.map (fun dp =>
              { convert_number_data_point dp metric MetricType.counter with
                  attributes :=
                    dictUpdate (attributes_to_dict dp.attributes)
                      (attributes_to_dict rm.resource.attributes) }))
      ∧ (∀ g, metric.sum = none → metric.gauge = some g →
        pointsOfMetric (attributes_to_dict rm.resource.attributes) metric
          = g.data_points.map (fun dp =>
              { convert_number_data_point dp metric MetricType.gauge with
                  attributes :=
                    dictUpdate (attributes_to_dict dp.attributes)
                      (attributes_to_dict rm.resource.attributes) }))
      ∧ (∀ h2, metric.sum = none → metric.gauge = none →
          metric.histogram = some h2 →
        pointsOfMetric (attributes_to_dict rm.resource.attributes) metric
          = h2.data_points.map (fun dp =>
              { convert_histogram_data_point dp metric with
                  attributes :=
                    dictUpdate (attributes_to_dict dp.attributes)
                      (attributes_to_dict rm.resource.attributes) }))
      ∧ (∀ (dp_attributes : List KeyValue) (k : String),
          dictLookup
              (dictUpdate (attributes_to_dict dp_attributes)
                (attributes_to_dict rm.resource.attributes)) k
            = (dictLookup (attributes_to_dict rm.resource.attributes) k).or
                (dictLookup (attributes_to_dict dp_attributes) k)) := by
  intro rm hrm sm hsm metric hmet
  refine ⟨?_, ?_, ?_, ?_⟩
  · intro s hs
    simp only [pointsOfMetric, hs]
    rfl
  · intro g hs hg
    simp only [pointsOfMetric, hs, hg]
    rfl
  · intro h2 hs hg hh
    simp only [pointsOfMetric, hs, hg, hh]
    rfl
  · intro dp_attributes k
    exact dictLookup_dictUpdate _ _ k (nodup_dictKeys_attributes_to_dict _)

/-- C1 witness: the amended theorem applied to the concrete request, whose
one gauge data point (`a = "d"`) is emitted with the resource value
`a = "r"` winning the conflict. -/
theorem c1_resource_attributes_win_witness :
    c1ResourceMetrics ∈ c1Request.resource_metrics
    ∧ c1ScopeMetrics ∈ c1ResourceMetrics.scope_metrics
    ∧ c1Metric ∈ c1ScopeMetrics.metrics
    ∧ c1Metric.sum = none
    ∧ c1Metric.gauge = some { data_points := [c1DataPoint] }
    ∧ pointsOfMetric (attributes_to_dict c1ResourceMetrics.resource.attributes)
          c1Metric
        = [c1Point]
    ∧ c1Point.attributes
        = dictUpdate (attributes_to_dict c1DataPoint.attributes)
            (attributes_to_dict c1ResourceMetrics.resource.attributes)
    ∧ dictLookup
          (dictUpdate (attributes_to_dict c1DataPoint.attributes)
            (attributes_to_dict c1ResourceMetrics.resource.attributes)) "a"
        = (dictLookup
              (attributes_to_dict c1ResourceMetrics.resource.attributes)
              "a").or
            (dictLookup (attributes_to_dict c1DataPoint.attributes) "a") :=
  ⟨by decide, by decide, by decide, by decide, by decide,
    (((c1_resource_attributes_win c1Request c1ResourceMetrics (by decide)
        c1ScopeMetrics (by decide) c1Metric (by decide)).2.1
      { data_points := [c1DataPoint] } rfl rfl).trans (by decide)),
    by decide,
    ((c1_resource_attributes_win c1Request c1ResourceMetrics (by decide)
        c1ScopeMetrics (by decide) c1Metric (by decide)).2.2.2
      c1DataPoint.attributes "a")⟩

/-! ## C6 — payload branch selection -/

/-- C6 counterexample: the claim says the first NON-EMPTY branch wins, so a
metric with a present-but-empty `sum` and a non-empty `gauge` should emit
the gauge points; the decoder instead takes the `sum` branch (pydantic
models are always truthy) and emits nothing. -/
theorem c6_counterexample :
    pointsOfMetric [] c6Metric = []
    ∧ (c6Metric.gauge.map (fun g => g.data_points.length)) = some 1 := by
  constructor
  · decide
  · decide

/-- C6 (amended): the decoder selects the first PRESENT branch in the order
sum, gauge, histogram, regardless of whether that branch has data points:
with `sum` present the gauge and histogram payloads are ignored, and with
`sum` absent and `gauge` present the histogram payload is ignored. -/
theorem c6_first_present_branch_wins (r : Dict) (m : Metric) :
    (∀ s, m.sum = some s →
      pointsOfMetric r m = pointsOfMetric r { m with gauge := none, histogram := none })
    ∧ (∀ g, m.sum = none → m.gauge = some g →
      pointsOfMetric r m = pointsOfMetric r { m with histogram := none }) := by
  obtain ⟨name, description, unit, msum, mgauge, mhist⟩ := m
  constructor
  · intro s hs
    simp only at hs
    subst hs
    simp [pointsOfMetric, convert_number_data_point]
  · intro g hs hg
    simp only at hs hg
    subst hs
    subst hg
    simp [pointsOfMetric, convert_number_data_point]

/-- C6 witness: the amended theorem applied to `c6Metric`, whose empty
`sum` branch shadows its non-empty `gauge` branch. -/
theorem c6_first_present_branch_wins_witness :
    c6Metric.sum = some { data_points := [], is_monotonic := true }
    ∧ pointsOfMetric [] c6Metric =
        pointsOfMetric [] { c6Metric with gauge := none, histogram := none } :=
  ⟨by decide,
    (c6_first_present_branch_wins [] c6Metric).1
      { data_points := [], is_monotonic := true } (by decide)⟩

/-! ## C2 — counter rate range query -/

/-- With `start = end` and a positive step, the bucket loop runs exactly
once, at `start`. -/
theorem stepTicks_self (a : ℚ) (s : Int) (hs : 0 < s) :
    stepTicks a a s = [a] := by
  unfold stepTicks
  rw [if_neg (by omega), if_neg (by norm_num)]
  have h0 : ((a - a) / ((s : Int) : ℚ)).floor = 0 := by
    have h : (a - a) / ((s : Int) : ℚ) = 0 := by norm_num
    rw [h]
    exact rfl
  rw [h0, show (0 : Int).toNat + 1 = 1 from rfl,
    show List.range 1 = [0] from by decide]
  simp

/-- The raw fetch for `[30, 30]` keeps only the sample at `t = 30`. -/
theorem c2_raw_fetch : fetch_counter_raw_values c2Table 30 30 = [(30, 15)] := by
  simp only [fetch_counter_raw_values, c2Table, List.filter]
  norm_num

/-- C2: the claimed scenario cannot happen on this code.  First conjunct:
the range query `rate(c[30s]) start=30 end=30 step=30` raises the
`TypeError` for the spurious `lookback_seconds` keyword argument (surfaced
as HTTP 500), instead of returning a sample.  Second conjunct: even
modelling the call as if the keyword were accepted, the raw fetch window
`[30, 30]` leaves one point in the only bucket, so the evaluator would emit
`0.0`.  Third and fourth conjuncts: the pure reset-aware rate kernel applied
to all four stored points with a 30-second window does produce the claimed
`(10 + 5 + 10)/30 = 5/6 = 0.8333…`, which is the intended behaviour the
code fails to reach. -/
theorem c2_rate_range_query_code_bug :
    handle_range_query_parsed c2RateQuery 30 30 30 =
      .error
        "fetch_timeseries_for_range() got an unexpected keyword argument 'lookback_seconds'"
    ∧ fetch_counter_rate_or_increase c2Table "c" [] 30 30 30 .rate
        = [("c", [], 0, 30)]
    ∧ calculate_rate_with_resets c2Table 30 = 5 / 6
    ∧ (5 : ℚ) / 6 ≠ 0 := by
  refine ⟨rfl, ?_, ?_, by norm_num⟩
  · unfold fetch_counter_rate_or_increase
    rw [c2_raw_fetch, if_neg (by decide), stepTicks_self 30 30 (by decide)]
    simp only [List.filterMap]
    norm_num
  · simp only [calculate_rate_with_resets, c2Table, totalDeltaWithResets,
      List.map]
    norm_num

/-! ## C9 — scalar instant query `up` -/

/-- C9: the instant query `up` parses as the scalar shortcut with
`scalar_value = "1"`, and for any database contents the handler returns the
success envelope with one vector item whose only label is
`__name__ = "up"` and whose sample is the requested timestamp paired with
the string `"1"`. -/
theorem c9_scalar_instant_up (instant_rows : List SeriesRow) :
    parse_scalar_shortcut "up" = some upScalarQuery
    ∧ handle_instant_query_parsed upScalarQuery 1700000000 instant_rows =
        .ok
          { status := "success"
            data :=
              { resultType := "vector"
                result :=
                  [{ metric := [("__name__", "up")]
                     value := (1700000000, "1") }] } } := by
  exact ⟨by decide, rfl⟩

/-! ## C3 — range query `up` -/

/-- C3 counterexample: the query string exactly `up` parses as a scalar
(`scalar_value = "1"`), and the range handler checks the scalar case before
its `metric_name == 'up'` branch, so the query is rejected with the
scalar-in-range error (HTTP 400) instead of being synthesized. -/
theorem c3_counterexample :
    parse_scalar_shortcut "up" = some upScalarQuery
    ∧ upScalarQuery.scalar_value = some "1"
    ∧ handle_range_query_parsed upScalarQuery 0 30 10 =
        .error "Invalid expression type \"scalar\" for range query" := by
  refine ⟨by decide, by decide, rfl⟩

/-- Folding the synthesized `up` rows groups them all under the empty label
key, in encounter order. -/
theorem up_series_grouped (ticks : List ℚ) (pts : List (ℚ × String)) :
    (ticks.map (fun t => (("up" : String), ([] : Dict), (1 : ℚ), t))).foldl
        (fun groups row =>
          addToGroup groups (pySorted pairLE row.2.1)
            (row.2.2.2, pyFloatStr row.2.2.1))
        [(([] : Dict), pts)]
      = [(([] : Dict), pts ++ ticks.map (fun x => (x, "1.0")))] := by
  induction ticks generalizing pts with
  | nil => simp
  | cons t ts ih =>
    rw [List.map_cons, List.foldl_cons]
    exact (ih (pts ++ [(t, "1.0")])).trans (by simp)

/-- C3 (amended): a range query whose string is exactly `up` parses as a
scalar and is rejected with the scalar-in-range 400 error; the
synthesize-per-step branch applies only to a parsed query whose
`metric_name` is `up` with no scalar value (reachable through the selector
grammar), and there the handler emits one `1.0` sample per step tick over
`[start, end]` inclusive as a matrix result. -/
theorem c3_up_range_query :
    (∀ (start_ts end_ts : ℚ) (step : Int),
        handle_range_query_parsed upScalarQuery start_ts end_ts step =
          .error "Invalid expression type \"scalar\" for range query")
    ∧ (∀ (parsed : ParsedQuery) (start_ts end_ts : ℚ) (step : Int),
        parsed.scalar_value = none → parsed.metric_name = some "up" →
        parsed.labels = [] → parsed.function = .raw →
        parsed.aggregation = none →
        handle_range_query_parsed parsed start_ts end_ts step =
          .ok
            { status := "success"
              data :=
                { resultType := "matrix"
                  result :=
                    match stepTicks start_ts end_ts step with
                    | [] => []
                    | _ :: _ =>
                        [{ metric := [("__name__", "up")]
                           values := (stepTicks start_ts end_ts step).map
                             (fun x => (x, "1.0")) }] } }) := by
  constructor
  · intro start_ts end_ts step
    rfl
  · intro parsed start_ts end_ts step hscalar hname hlabels hfn hagg
    have hen : parsed.get_effective_metric_name = "up" := by
      simp [ParsedQuery.get_effective_metric_name, hname, hfn, hagg]
    simp only [handle_range_query_parsed, hscalar, hname, hlabels,
      eq_self_iff_true, if_true]
    cases hticks : stepTicks start_ts end_ts step with
    | nil => simp [generate_query_range_response, hen]
    | cons t ts =>
      have hgrouped :
          ((t :: ts).map
              (fun x => (("up" : String), ([] : Dict), (1 : ℚ), x))).foldl
              (fun groups row =>
                addToGroup groups (pySorted pairLE row.2.1)
                  (row.2.2.2, pyFloatStr row.2.2.1)) []
            = [(([] : Dict), (t :: ts).map (fun x => (x, "1.0")))] := by
        rw [List.map_cons, List.foldl_cons]
        exact (up_series_grouped ts [(t, "1.0")]).trans (by simp)
      simp only [generate_query_range_response]
      rw [show (List.map (fun t => (("up" : String), ([] : Dict), (1 : ℚ), t))
            (t :: ts)).foldl
            (fun groups row =>
              addToGroup groups (pySorted pairLE row.2.1)
                (row.2.2.2, pyFloatStr row.2.2.1)) []
          = [(([] : Dict), (t :: ts).map (fun x => (x, "1.0")))] from hgrouped]
      simp only [hen, List.map_cons, List.map_nil]
      rfl

/-- C3 witness: the amended theorem applied to a parsed `up` selector over
`[0, 30]` with step 10 yields the four synthesized ticks. -/
theorem c3_up_range_query_witness :
    upSelectorQuery.scalar_value = none
    ∧ upSelectorQuery.metric_name = some "up"
    ∧ handle_range_query_parsed upSelectorQuery 0 30 10 =
        .ok
          { status := "success"
            data :=
              { resultType := "matrix"
                result :=
                  [{ metric := [("__name__", "up")]
                     values := [(0, "1.0"), (10, "1.0"), (20, "1.0"),
                       (30, "1.0")] }] } } := by
  refine ⟨rfl, rfl, ?_⟩
  have h := c3_up_range_query.2 upSelectorQuery 0 30 10 rfl rfl rfl rfl rfl
  rw [h]
  have hticks : stepTicks 0 30 10 = [0, 10, 20, 30] := by
    unfold stepTicks
    rw [if_neg (by omega), if_neg (by norm_num)]
    have h3 : (((30 : ℚ) - 0) / ((10 : Int) : ℚ)).floor = 3 := by
      have he : ((30 : ℚ) - 0) / ((10 : Int) : ℚ) = 3 := by norm_num
      rw [he]
      exact rfl
    rw [h3, show (3 : Int).toNat + 1 = 4 from rfl,
      show List.range 4 = [0, 1, 2, 3] from by decide]
    simp
    norm_num
  rw [hticks]
  rfl

/-! ## C7 — histogram text exposition -/

/-- C7 counterexample: the emitted bucket lines have a space between
`_bucket` and the `{le=...}` group (the f-string reads
`..._bucket{label_str} {{le="..."}} ...`), and the float bound `1.0` is
rendered as `1.0`, not `1`; so the claimed line `h_bucket{le="1"} 2`
is not among the emitted lines. -/
theorem c7_counterexample :
    format_histogram_metric c7Histogram =
      ["# HELP h ", "# TYPE h histogram",
       "h_bucket \x7ble=\"1.0\"\x7d 2", "h_bucket \x7ble=\"5.0\"\x7d 5",
       "h_bucket \x7ble=\"+Inf\"\x7d 6", "h_sum 12.5", "h_count 6"]
    ∧ ("h_bucket \x7ble=\"1.0\"\x7d 2" : String)
        ≠ "h_bucket\x7ble=\"1\"\x7d 2" := by
  refine ⟨by decide, by decide⟩

/-- C7 (amended): for the histogram point with bounds `[1, 5]`, bucket
counts `[2, 3, 1]`, sum `12.5` and count `6`, the exposition emits the
cumulative bucket lines in ascending bound order with values `2`, `5`, the
`+Inf` bucket equal to `count = 6`, then `_sum 12.5` and `_count 6`; each
bucket line carries a space between `_bucket` and its `{le="…"}` group and
renders the bound as a Python float (`1.0`, `5.0`). -/
theorem c7_histogram_exposition :
    c7Histogram.sum = some (25 / 2)
    ∧ format_histogram_metric c7Histogram =
        ["# HELP h ", "# TYPE h histogram",
         "h_bucket \x7ble=\"1.0\"\x7d 2", "h_bucket \x7ble=\"5.0\"\x7d 5",
         "h_bucket \x7ble=\"+Inf\"\x7d 6", "h_sum 12.5", "h_count 6"] := by
  constructor
  · show some (⟨25, 2, by decide, by decide⟩ : ℚ) = some (25 / 2)
    rw [Rat.mk'_eq_divInt]
    norm_num [Rat.divInt_eq_div]
  · decide

/-! ## C4 — ack if and only if insert succeeded -/

/-- C4: in both worker loops (fresh reads and reclaimed pending entries),
the acked ids are exactly the ids of the entries whose `insert_metric`
completed without raising, in order — so an entry with a failed insert is
left un-acked and the loop continues with the remaining entries instead of
aborting the batch. -/
theorem c4_ack_iff_insert_ok (entries : List (String × MetricPoint))
    (insert_metric : String × MetricPoint → Except String Unit) :
    worker_read_loop_acks entries insert_metric =
      (entries.filter (fun e => (insert_metric e).isOk)).map Prod.fst
    ∧ worker_pending_loop_acks entries insert_metric =
      (entries.filter (fun e => (insert_metric e).isOk)).map Prod.fst := by
  induction entries with
  | nil => exact ⟨rfl, rfl⟩
  | cons e rest ih =>
    cases h : insert_metric e with
    | ok u =>
      have hok : (Except.ok u : Except String Unit).isOk = true := rfl
      simp [worker_read_loop_acks, worker_pending_loop_acks, h,
        List.filter_cons, hok, ih.1, ih.2]
    | error msg =>
      have herr : (Except.error msg : Except String Unit).isOk = false := rfl
      simp [worker_read_loop_acks, worker_pending_loop_acks, h,
        List.filter_cons, herr, ih.1, ih.2]

/-! ## C8 — increase over monotone segments and a single reset -/

theorem totalDeltaWithResets_append (prev : ℚ) (l1 l2 : List ℚ) :
    totalDeltaWithResets prev (l1 ++ l2) =
      totalDeltaWithResets prev l1
        + totalDeltaWithResets (l1.getLastD prev) l2 := by
  induction l1 generalizing prev with
  | nil => simp [totalDeltaWithResets]
  | cons c t ih =>
    simp only [List.cons_append, totalDeltaWithResets, List.getLastD_cons,
      List.append_eq]
    rw [ih]
    ring

theorem totalDeltaWithResets_monotone (prev : ℚ) (l : List ℚ)
    (h : List.Chain (· ≤ ·) prev l) :
    totalDeltaWithResets prev l = l.getLastD prev - prev := by
  induction l generalizing prev with
  | nil => simp [totalDeltaWithResets]
  | cons c t ih =>
    cases h with
    | cons hpc hct =>
      simp only [totalDeltaWithResets, List.getLastD_cons]
      rw [if_neg (by linarith), ih c hct]
      ring

theorem chain_of_nonnegDeltas (p : ℚ × ℚ) (rest : List (ℚ × ℚ))
    (h : nonnegDeltas (p :: rest) = true) :
    List.Chain (· ≤ ·) p.2 (rest.map Prod.snd) := by
  induction rest generalizing p with
  | nil => exact List.Chain.nil
  | cons b t ih =>
    simp only [nonnegDeltas, Bool.and_eq_true, decide_eq_true_eq] at h
    exact List.Chain.cons h.1 (ih b (by
      simpa [nonnegDeltas] using h.2))

theorem getLastD_map_snd (p : ℚ × ℚ) (rest : List (ℚ × ℚ)) :
    (rest.map Prod.snd).getLastD p.2 = (rest.getLastD p).2 := by
  induction rest generalizing p with
  | nil => rfl
  | cons b t ih => simp only [List.map_cons, List.getLastD_cons, ih]

/-- C8: first conjunct — on a point sequence with only non-negative
consecutive deltas (and at least two points), the increase computation
returns `v[n-1] − v[0]`.  Second conjunct — splicing two such monotone
segments around one reset (the first value of the right segment drops below
the last value of the left segment) gives exactly the left segment's
telescoped contribution, plus the post-reset value, plus the right
segment's telescoped contribution: the deltas on either side of the reset
are unchanged. -/
theorem c8_increase_monotone_and_reset :
    (∀ (p : ℚ × ℚ) (rest : List (ℚ × ℚ)), rest ≠ [] →
        nonnegDeltas (p :: rest) = true →
        calculate_increase_with_resets (p :: rest) =
          (rest.getLastD p).2 - p.2)
    ∧ (∀ (xs ys : List (ℚ × ℚ)), xs ≠ [] → ys ≠ [] →
        nonnegDeltas xs = true → nonnegDeltas ys = true →
        (ys.headD (0, 0)).2 < (xs.getLastD (0, 0)).2 →
        calculate_increase_with_resets (xs ++ ys) =
          ((xs.getLastD (0, 0)).2 - (xs.headD (0, 0)).2)
            + (ys.headD (0, 0)).2
            + ((ys.getLastD (0, 0)).2 - (ys.headD (0, 0)).2)) := by
  constructor
  · intro p rest hne h
    have hlen : ¬ (p :: rest).length < 2 := by
      cases rest with
      | nil => exact absurd rfl hne
      | cons b t => simp
    simp only [calculate_increase_with_resets, if_neg hlen]
    rw [totalDeltaWithResets_monotone p.2 (rest.map Prod.snd)
      (chain_of_nonnegDeltas p rest h)]
    rw [getLastD_map_snd]
  · intro xs ys hxs hys hmx hmy hreset
    obtain ⟨x, xt, rfl⟩ := List.exists_cons_of_ne_nil hxs
    obtain ⟨y, yt, rfl⟩ := List.exists_cons_of_ne_nil hys
    have hlen : ¬ (x :: (xt ++ y :: yt)).length < 2 := by
      simp only [List.length_cons, List.length_append]
      omega
    simp only [List.cons_append, calculate_increase_with_resets, if_neg hlen]
    rw [show (xt ++ y :: yt).map Prod.snd
        = xt.map Prod.snd ++ (y.2 :: yt.map Prod.snd) by simp]
    rw [totalDeltaWithResets_append]
    have hlx : (xt.map Prod.snd).getLastD x.2 = (xt.getLastD x).2 :=
      getLastD_map_snd x xt
    rw [hlx]
    simp only [totalDeltaWithResets]
    have hresetx : y.2 - (xt.getLastD x).2 < 0 := by
      simp only [List.getLastD_cons, List.headD_cons] at hreset
      linarith
    rw [if_pos hresetx]
    rw [totalDeltaWithResets_monotone x.2 (xt.map Prod.snd)
      (chain_of_nonnegDeltas x xt hmx)]
    rw [totalDeltaWithResets_monotone y.2 (yt.map Prod.snd)
      (chain_of_nonnegDeltas y yt hmy)]
    rw [getLastD_map_snd x xt, getLastD_map_snd y yt]
    simp only [List.getLastD_cons, List.headD_cons]
    ring

/-- C8 witness: both conjuncts applied to the concrete reset scenario
`(0,0),(10,10)` followed by `(20,5),(30,15)`: the monotone prefix increases
by 10, and the spliced sequence increases by `10 + 5 + 10 = 25`. -/
theorem c8_increase_monotone_and_reset_witness :
    calculate_increase_with_resets [(0, 0), (10, 10)] = 10
    ∧ calculate_increase_with_resets [(0, 0), (10, 10), (20, 5), (30, 15)]
        = 25 := by
  constructor
  · exact (c8_increase_monotone_and_reset.1 (0, 0) [(10, 10)] (by decide)
      (by decide)).trans (by norm_num)
  · exact (c8_increase_monotone_and_reset.2 [(0, 0), (10, 10)]
      [(20, 5), (30, 15)] (by decide) (by decide) (by decide) (by decide)
      (by decide)).trans (by norm_num)

/-! ## C5 — FIFO ordering of the overflow-buffered sender -/

theorem drainBuffer_append {α : Type} (buffer stream : List α)
    (out : Nat → XaddOutcome) (i : Nat) :
    (drainBuffer stream buffer out i).1
      ++ (drainBuffer stream buffer out i).2.1 = stream ++ buffer := by
  induction buffer generalizing stream i with
  | nil => simp [drainBuffer]
  | cons b rest ih =>
    cases hout : out i with
    | ok =>
      simp only [drainBuffer, hout]
      rw [ih]
      simp
    | connTimeout => simp [drainBuffer, hout]
    | raise msg => simp [drainBuffer, hout]

theorem drainBuffer_ok_buffer {α : Type} (buffer stream : List α)
    (out : Nat → XaddOutcome) (i : Nat)
    (h : (drainBuffer stream buffer out i).2.2.2 = .ok) :
    (drainBuffer stream buffer out i).2.1 = [] := by
  induction buffer generalizing stream i with
  | nil => rfl
  | cons b rest ih =>
    cases hout : out i with
    | ok =>
      simp only [drainBuffer, hout] at h ⊢
      exact ih _ _ h
    | connTimeout => simp [drainBuffer, hout] at h
    | raise msg => simp [drainBuffer, hout] at h

theorem drainBuffer_no_raise {α : Type} (buffer stream : List α)
    (out : Nat → XaddOutcome) (i : Nat)
    (hnr : ∀ j, (out j).isRaise = false) (msg : String) :
    (drainBuffer stream buffer out i).2.2.2 ≠ .raise msg := by
  induction buffer generalizing stream i with
  | nil => simp [drainBuffer]
  | cons b rest ih =>
    cases hout : out i with
    | ok =>
      simp only [drainBuffer, hout]
      exact ih _ _
    | connTimeout => simp [drainBuffer, hout]
    | raise m =>
      have := hnr i
      rw [hout] at this
      simp [XaddOutcome.isRaise] at this

/-- One `send_message` call under connection/timeout failures only: either
nothing is dropped and the new entry joins the stream-then-buffer sequence
at the tail, or (on overflow) exactly the new entry is dropped and the
sequence is unchanged. -/
theorem send_message_step {α : Type} (cap : Nat) (st : CollectorState α)
    (d : α) (out : Nat → XaddOutcome)
    (hnr : ∀ j, (out j).isRaise = false) :
    ((send_message true cap st d out).state.dropped = st.dropped
      ∧ (send_message true cap st d out).state.stream
          ++ (send_message true cap st d out).state.buffer
        = (st.stream ++ st.buffer) ++ [d])
    ∨ ((send_message true cap st d out).state.dropped = st.dropped ++ [d]
      ∧ (send_message true cap st d out).state.stream
          ++ (send_message true cap st d out).state.buffer
        = st.stream ++ st.buffer) := by
  have hconcat := drainBuffer_append st.buffer st.stream out 0
  have hokbuf := fun h => drainBuffer_ok_buffer st.buffer st.stream out 0 h
  have hnorise := drainBuffer_no_raise st.buffer st.stream out 0 hnr
  rcases hdb : drainBuffer st.stream st.buffer out 0 with
    ⟨stream, buf, i, status⟩
  rw [hdb] at hconcat hokbuf hnorise
  simp only at hconcat hokbuf hnorise
  cases status with
  | ok =>
    have hbuf : buf = [] := hokbuf rfl
    subst hbuf
    simp only [List.append_nil] at hconcat
    cases hout : out i with
    | ok =>
      have heq : send_message true cap st d out
          = .sent ⟨stream ++ [d], [], st.dropped⟩ := by
        simp [send_message, hdb, hout]
      left
      rw [heq]
      exact ⟨rfl, by simp [SendResult.state, hconcat]⟩
    | connTimeout =>
      by_cases hcap : List.length ([] : List α) < cap
      · have heq : send_message true cap st d out
            = .sent ⟨stream, [] ++ [d], st.dropped⟩ := by
          simp [send_message, hdb, hout, hcap]
          omega
        left
        rw [heq]
        exact ⟨rfl, by simp [SendResult.state, hconcat]⟩
      · have heq : send_message true cap st d out
            = .sent ⟨stream, [], st.dropped ++ [d]⟩ := by
          simp only [List.length_nil] at hcap
          simp [send_message, hdb, hout]
          omega
        right
        rw [heq]
        exact ⟨rfl, by simp [SendResult.state, hconcat]⟩
    | raise msg =>
      have := hnr i
      rw [hout] at this
      simp [XaddOutcome.isRaise] at this
  | connTimeout =>
    by_cases hcap : buf.length < cap
    · have heq : send_message true cap st d out
          = .sent ⟨stream, buf ++ [d], st.dropped⟩ := by
        simp [send_message, hdb, hcap]
      left
      rw [heq]
      refine ⟨rfl, ?_⟩
      show stream ++ (buf ++ [d]) = (st.stream ++ st.buffer) ++ [d]
      rw [← List.append_assoc, hconcat]
    · have heq : send_message true cap st d out
          = .sent ⟨stream, buf, st.dropped ++ [d]⟩ := by
        simp [send_message, hdb, hcap]
      right
      rw [heq]
      exact ⟨rfl, hconcat⟩
  | raise msg => exact absurd rfl (hnorise msg)

theorem send_run_dropped_length_mono {α : Type} (cap : Nat)
    (sends : List (α × (Nat → XaddOutcome))) (st : CollectorState α)
    (hnr : ∀ s ∈ sends, ∀ j, (s.2 j).isRaise = false) :
    st.dropped.length ≤ (send_run true cap st sends).dropped.length := by
  induction sends generalizing st with
  | nil => simp [send_run]
  | cons s rest ih =>
    have hs : ∀ j, (s.2 j).isRaise = false := hnr s (List.mem_cons_self s rest)
    have hrest : ∀ s ∈ rest, ∀ j, (s.2 j).isRaise = false :=
      fun x hx => hnr x (List.mem_cons_of_mem s hx)
    have hstep := send_message_step cap st s.1 s.2 hs
    have htail := ih ((send_message true cap st s.1 s.2).state) hrest
    rw [show send_run true cap st (s :: rest)
        = send_run true cap ((send_message true cap st s.1 s.2).state) rest
        from rfl]
    rcases hstep with ⟨hd, _⟩ | ⟨hd, _⟩
    · rw [hd] at htail
      exact htail
    · rw [hd] at htail
      simp only [List.length_append, List.length_cons, List.length_nil] at htail
      omega

theorem send_run_no_drop_fifo {α : Type} (cap : Nat)
    (sends : List (α × (Nat → XaddOutcome))) (st : CollectorState α)
    (hnr : ∀ s ∈ sends, ∀ j, (s.2 j).isRaise = false)
    (hkeep : (send_run true cap st sends).dropped.length = st.dropped.length) :
    (send_run true cap st sends).stream ++ (send_run true cap st sends).buffer
      = (st.stream ++ st.buffer) ++ sends.map Prod.fst := by
  induction sends generalizing st with
  | nil => simp [send_run]
  | cons s rest ih =>
    have hs : ∀ j, (s.2 j).isRaise = false := hnr s (List.mem_cons_self s rest)
    have hrest : ∀ s ∈ rest, ∀ j, (s.2 j).isRaise = false :=
      fun x hx => hnr x (List.mem_cons_of_mem s hx)
    have hstep := send_message_step cap st s.1 s.2 hs
    have hmono := send_run_dropped_length_mono cap rest
      ((send_message true cap st s.1 s.2).state) hrest
    rw [show send_run true cap st (s :: rest)
        = send_run true cap ((send_message true cap st s.1 s.2).state) rest
        from rfl] at hkeep ⊢
    rcases hstep with ⟨hd, hseq⟩ | ⟨hd, _⟩
    · have hkeep1 : (send_run true cap
          ((send_message true cap st s.1 s.2).state) rest).dropped.length
          = ((send_message true cap st s.1 s.2).state).dropped.length := by
        rw [hd]
        omega
      rw [ih _ hrest hkeep1, hseq]
      simp
    · rw [hd] at hmono
      simp only [List.length_append, List.length_cons, List.length_nil]
        at hmono
      omega

/-- C5: starting from an empty client, for any sequence of sends whose
`xadd` failures are all connection/timeout errors, if the overflow buffer
never dropped an entry then the appended stream followed by the still
buffered entries is exactly the sent payloads in send order — entries reach
the durable stream in FIFO order, and a failed entry is retried from the
buffer before any later entry. -/
theorem c5_fifo_no_overflow {α : Type} (cap : Nat)
    (sends : List (α × (Nat → XaddOutcome)))
    (hnr : ∀ s ∈ sends, ∀ j, (s.2 j).isRaise = false)
    (hnodrop : (send_run true cap ⟨[], [], []⟩ sends).dropped = []) :
    (send_run true cap ⟨[], [], []⟩ sends).stream
        ++ (send_run true cap ⟨[], [], []⟩ sends).buffer
      = sends.map Prod.fst := by
  have h := send_run_no_drop_fifo cap sends ⟨[], [], []⟩ hnr
    (by rw [hnodrop])
  simpa using h

/-- C5 witness: three sends with a connection failure on the second —
entry `b` is buffered and then drained before `c`, so the stream holds
`a, b, c` in send order with nothing dropped. -/
theorem c5_fifo_no_overflow_witness :
    (send_run true 2 ⟨[], [], []⟩
        [("a", fun _ => .ok), ("b", fun _ => .connTimeout),
         ("c", fun _ => .ok)]).dropped = []
    ∧ (send_run true 2 ⟨[], [], []⟩
        [("a", fun _ => .ok), ("b", fun _ => .connTimeout),
         ("c", fun _ => .ok)]).stream
        ++ (send_run true 2 ⟨[], [], []⟩
        [("a", fun _ => .ok), ("b", fun _ => .connTimeout),
         ("c", fun _ => .ok)]).buffer
      = ["a", "b", "c"] :=
  ⟨rfl,
    c5_fifo_no_overflow 2
      [("a", fun _ => .ok), ("b", fun _ => .connTimeout),
       ("c", fun _ => .ok)]
      (by
        intro s hs j
        simp only [List.mem_cons, List.not_mem_nil, or_false] at hs
        rcases hs with rfl | rfl | rfl <;> rfl)
      rfl⟩

/-! ## C10 — ingest maps every enqueue failure to HTTP 400 -/

/-- C10: `POST /v1/metrics` either answers 200 with the count of converted
points, or 400 with a detail beginning `Invalid OTLP data:`; no send
failure surfaces as a 5xx.  In particular an un-started stream client
(`RuntimeError('Redis client not started')`, an internal cause) is reported
as 400, while connection/timeout errors are absorbed by the overflow buffer
inside `send_message` and do not disturb the 200 path. -/
theorem c10_ingest_errors_as_400 :
    (∀ (request : OTLPMetricsRequest) (running : Bool) (cap : Nat)
        (st : CollectorState MetricPoint) (outs : Nat → Nat → XaddOutcome),
        ingest_metrics request running cap st outs
            = .ok (convert_otlp_to_internal request).length
        ∨ ∃ msg, ingest_metrics request running cap st outs
            = .error (400, "Invalid OTLP data: " ++ msg))
    ∧ (∀ (request : OTLPMetricsRequest) (cap : Nat)
        (st : CollectorState MetricPoint) (outs : Nat → Nat → XaddOutcome),
        convert_otlp_to_internal request ≠ [] →
        ingest_metrics request false cap st outs
          = .error (400, "Invalid OTLP data: Redis client not started")) := by
  constructor
  · intro request running cap st outs
    cases h : ingest_send_loop running cap st
        (convert_otlp_to_internal request) outs 0 with
    | ok st1 =>
      left
      simp [ingest_metrics, h]
    | error msg =>
      right
      exact ⟨msg, by simp [ingest_metrics, h]⟩
  · intro request cap st outs hne
    cases hpts : convert_otlp_to_internal request with
    | nil => exact absurd hpts hne
    | cons p rest =>
      simp [ingest_metrics, hpts, ingest_send_loop, send_message]

/-- C10 witness: the un-started-client case applied to the concrete request
with one point. -/
theorem c10_ingest_errors_as_400_witness :
    convert_otlp_to_internal c1Request ≠ []
    ∧ ingest_metrics c1Request false 1000 ⟨[], [], []⟩ (fun _ _ => .ok)
        = .error (400, "Invalid OTLP data: Redis client not started") :=
  ⟨by decide,
    c10_ingest_errors_as_400.2 c1Request 1000 ⟨[], [], []⟩ (fun _ _ => .ok)
      (by decide)⟩
